import Mathlib

/-!
Verification of the iliikata silver bot specification against the repository.

The repository ships the React frontend (App.tsx, PositionCard, FearGreedWidget,
Dashboard, ClaudeSummary, config.ts) together with the deployment scripts; the
Python analytics backend (silver_position_engine.py, technical_levels.py,
silver_data_sources.py, silver_trading_api.py) referenced by the README is not
part of the source tree.  Definitions taken from the frontend are embedded
directly from the TypeScript source; definitions for the missing backend are
modelled from the specification, and each such definition carries a doc comment
starting with the words Modelled from the spec.

Prices, indicator values and scores are embedded as rationals; candle series
are lists ordered by ascending time.
-/

namespace SilverBot

/-- One OHLCV observation for a timeframe at a timestamp (spec section 3,
mirrored by the chart_data arrays of the frontend Position type).  The open
price is called `op` because `open` is a Lean keyword. -/
structure Candle where
  op : ℚ
  high : ℚ
  low : ℚ
  close : ℚ
  volume : ℚ
  timestamp : ℕ
deriving DecidableEq, Repr

/-- Closing prices of a candle series, oldest first. -/
def closes (cs : List Candle) : List ℚ := cs.map (fun c => c.close)

/-- Volumes of a candle series, oldest first. -/
def volumes (cs : List Candle) : List ℚ := cs.map (fun c => c.volume)

/-- Maximum of a list of rationals (0 for the empty list, which every caller
guards against). -/
def listMax : List ℚ → ℚ
  | [] => 0
  | x :: xs => xs.foldl max x

/-- Minimum of a list of rationals (0 for the empty list, which every caller
guards against). -/
def listMin : List ℚ → ℚ
  | [] => 0
  | x :: xs => xs.foldl min x

/-- Last element of a list of rationals, 0 for the empty list (every caller
guards against the empty case). -/
def lastD (xs : List ℚ) : ℚ := xs.getLast?.getD 0

/-- Modelled from the spec: SMA(n) of the backend indicator engine
(silver_position_engine.py, absent from the source tree).  Arithmetic mean of
the trailing n closes; undefined if fewer than n values exist (spec 4.2). -/
def smaLast (n : ℕ) (xs : List ℚ) : Option ℚ :=
  if xs.length < n ∨ n = 0 then none
  else some ((xs.drop (xs.length - n)).sum / (n : ℚ))

/-- One step of exponential smoothing with factor k. -/
def emaStep (k acc x : ℚ) : ℚ := x * k + acc * (1 - k)

/-- Modelled from the spec: EMA(n) of the backend indicator engine (absent from
the source tree).  Recursive exponential smoothing with factor 2/(n+1), seeded
by the SMA of the first n values (spec 4.2); undefined on fewer than n
values. -/
def ema (n : ℕ) (xs : List ℚ) : Option ℚ :=
  if xs.length < n ∨ n = 0 then none
  else some ((xs.drop n).foldl (emaStep ((2 : ℚ) / ((n : ℚ) + 1))) ((xs.take n).sum / (n : ℚ)))

/-- Differences of consecutive values of a series. -/
def deltas : List ℚ → List ℚ
  | a :: b :: rest => (b - a) :: deltas (b :: rest)
  | _ => []

/-- Wilder smoothing: seed with the mean of the first n values, then fold the
rest with acc ↦ (acc·(n−1) + x)/n. -/
def wilderAvg (n : ℕ) (xs : List ℚ) : ℚ :=
  (xs.drop n).foldl (fun acc x => (acc * ((n : ℚ) - 1) + x) / (n : ℚ))
    ((xs.take n).sum / (n : ℚ))

/-- Modelled from the spec: RSI(14) of the backend indicator engine (absent
from the source tree).  Wilder smoothed average gain over average loss across
14 periods; RSI = 100 when the average loss is zero and the average gain is
positive (spec 4.2); the spec leaves the all-flat case open and 50 is used for
it; undefined when fewer than 14 periods exist. -/
def rsi14 (xs : List ℚ) : Option ℚ :=
  let ds := deltas xs
  if ds.length < 14 then none
  else
    let avgGain := wilderAvg 14 (ds.map (fun d => max d 0))
    let avgLoss := wilderAvg 14 (ds.map (fun d => max (-d) 0))
    if avgLoss = 0 then some (if 0 < avgGain then 100 else 50)
    else some (100 - 100 / (1 + avgGain / avgLoss))

/-- Modelled from the spec: MACD line of the backend indicator engine (absent
from the source tree).  EMA(12) − EMA(26) (spec 4.2); undefined while either
EMA is undefined. -/
def macdLine (xs : List ℚ) : Option ℚ :=
  match ema 12 xs, ema 26 xs with
  | some e12, some e26 => some (e12 - e26)
  | _, _ => none

/-- MACD line recomputed on every prefix of the close series, keeping the
defined values. -/
def macdLineSeries (xs : List ℚ) : List ℚ :=
  (List.range xs.length).filterMap fun i => macdLine (xs.take (i + 1))

/-- Modelled from the spec: MACD signal of the backend indicator engine
(absent from the source tree).  EMA(9) of the MACD line (spec 4.2). -/
def macdSignal (xs : List ℚ) : Option ℚ := ema 9 (macdLineSeries xs)

/-- Modelled from the spec: Stochastic %K(14) of the backend indicator engine
(absent from the source tree).  (close − lowest low)/(highest high − lowest
low)·100 over the trailing 14 candles, defined as 50 when the range is zero
(spec 4.2); undefined on fewer than 14 candles. -/
def stochK14 (cs : List Candle) : Option ℚ :=
  if cs.length < 14 then none
  else
    let w := cs.drop (cs.length - 14)
    let hh := listMax (w.map (fun c => c.high))
    let ll := listMin (w.map (fun c => c.low))
    let c := lastD (closes cs)
    if hh = ll then some 50 else some ((c - ll) / (hh - ll) * 100)

/-- True ranges of consecutive candle pairs:
max(high−low, |high−prev close|, |low−prev close|) (spec 4.2). -/
def trueRanges : List Candle → List ℚ
  | a :: b :: rest =>
      max (b.high - b.low) (max |b.high - a.close| |b.low - a.close|) :: trueRanges (b :: rest)
  | _ => []

/-- Modelled from the spec: ATR(14) of the backend indicator engine (absent
from the source tree).  Wilder smoothed average of the true range (spec 4.2);
undefined when fewer than 14 true ranges exist. -/
def atr14 (cs : List Candle) : Option ℚ :=
  let trs := trueRanges cs
  if trs.length < 14 then none else some (wilderAvg 14 trs)

/-- Positive directional movements of consecutive candle pairs. -/
def plusDMs : List Candle → List ℚ
  | a :: b :: rest =>
      (if a.low - b.low < b.high - a.high ∧ 0 < b.high - a.high
         then b.high - a.high else 0) :: plusDMs (b :: rest)
  | _ => []

/-- Negative directional movements of consecutive candle pairs. -/
def minusDMs : List Candle → List ℚ
  | a :: b :: rest =>
      (if b.high - a.high < a.low - b.low ∧ 0 < a.low - b.low
         then a.low - b.low else 0) :: minusDMs (b :: rest)
  | _ => []

/-- Modelled from the spec: ADX(14) of the backend indicator engine (absent
from the source tree).  The spec pins only that it is derived from smoothed
directional movement (+DM/−DM) divided by ATR (spec 4.2); the directional
index 100·|DI+ − DI−|/(DI+ + DI−) over Wilder smoothed movements realises
exactly that; undefined on fewer than 15 candles (14 movement periods). -/
def adx14 (cs : List Candle) : Option ℚ :=
  if cs.length < 15 then none
  else
    let sTR := wilderAvg 14 (trueRanges cs)
    let sP := wilderAvg 14 (plusDMs cs)
    let sM := wilderAvg 14 (minusDMs cs)
    if sTR = 0 then some 0
    else
      let diP := 100 * sP / sTR
      let diM := 100 * sM / sTR
      if diP + diM = 0 then some 0 else some (100 * |diP - diM| / (diP + diM))

/-- Modelled from the spec: volume ratio of the backend indicator engine
(absent from the source tree).  Current volume over the SMA(20) of volume;
undefined if fewer than 20 candles exist (spec 4.2). -/
def volumeRatio20 (cs : List Candle) : Option ℚ :=
  if cs.length < 20 then none
  else
    let vs := volumes cs
    some (lastD vs / ((vs.drop (vs.length - 20)).sum / 20))

/-- Modelled from the spec: the IndicatorSet record (spec section 3) with a
typed absence (Option) for every lookback-limited field, as spec section 9
demands.  The Bollinger upper/lower bands and the directional trend value are
the only spec fields left out: the bands need a real square root, which has no
computable rational form, and neither field is referenced by any claim. -/
structure IndicatorSet where
  ema_12 : Option ℚ
  ema_26 : Option ℚ
  sma_50 : Option ℚ
  sma_200 : Option ℚ
  rsi : Option ℚ
  macd : Option ℚ
  macd_signal : Option ℚ
  stoch_k : Option ℚ
  bb_middle : Option ℚ
  atr : Option ℚ
  adx : Option ℚ
  volume_ratio : Option ℚ
deriving DecidableEq, Repr

/-- Modelled from the spec: the backend indicator engine entry point (absent
from the source tree), a pure function from a candle series to the
IndicatorSet of the most recent candle (spec 4.2). -/
def computeIndicators (cs : List Candle) : IndicatorSet :=
  { ema_12 := ema 12 (closes cs)
    ema_26 := ema 26 (closes cs)
    sma_50 := smaLast 50 (closes cs)
    sma_200 := smaLast 200 (closes cs)
    rsi := rsi14 (closes cs)
    macd := macdLine (closes cs)
    macd_signal := macdSignal (closes cs)
    stoch_k := stochK14 cs
    bb_middle := smaLast 20 (closes cs)
    atr := atr14 cs
    adx := adx14 cs
    volume_ratio := volumeRatio20 cs }

/-- Direction of one indicator vote in the scoring engine: bullish, bearish,
or abstaining (spec 4.4 and 7: an undefined indicator abstains). -/
inductive VoteDir
  | bullish
  | bearish
  | abstain
deriving DecidableEq, Repr

/-- Modelled from the spec: the numeric contribution one vote of the backend
scoring engine (absent from the source tree) adds to the score: +weight for a
bullish vote, −weight for a bearish vote, and exactly 0 for an abstaining vote
(spec 4.4). -/
def contribution (w : ℚ) : VoteDir → ℚ
  | .bullish => w
  | .bearish => -w
  | .abstain => 0

/-- Modelled from the spec: the scoring configuration, the list of fixed
indicator-vote weights (spec 4.4; the concrete numbers are a policy choice per
spec section 9, so the list is left abstract). -/
structure ScoringConfig where
  weights : List ℚ

/-- Modelled from the spec: the theoretical maximum score magnitude, the sum
of the absolute weights of all configured votes (spec 4.4). -/
def maxScore (cfg : ScoringConfig) : ℚ := (cfg.weights.map (fun w => |w|)).sum

/-- Modelled from the spec: the signed score, the sum of the per-vote
contributions (spec 4.4). -/
def totalScore (cfg : ScoringConfig) (dirs : List VoteDir) : ℚ :=
  (List.zipWith contribution cfg.weights dirs).sum

/-- The score/max_score pair published in every Position (App.tsx lines
21-22). -/
structure ScoredSignal where
  score : ℚ
  max_score : ℚ
deriving DecidableEq, Repr

/-- Modelled from the spec: one evaluation of the backend scoring engine
(absent from the source tree) for a fixed configuration, producing the
published score and max_score fields (spec 4.4). -/
def evaluateSignal (cfg : ScoringConfig) (dirs : List VoteDir) : ScoredSignal :=
  { score := totalScore cfg dirs, max_score := maxScore cfg }

/-- Modelled from the spec: turning an optional indicator value into a vote;
an undefined indicator always becomes an abstaining vote, a defined one is
classified by the policy function f (spec 4.2 closing sentence and 7). -/
def voteOf (f : ℚ → VoteDir) : Option ℚ → VoteDir
  | none => .abstain
  | some v => f v

theorem closes_length (cs : List Candle) : (closes cs).length = cs.length :=
  List.length_map _ _

theorem deltas_length : ∀ xs : List ℚ, (deltas xs).length = xs.length - 1
  | [] => rfl
  | [_] => rfl
  | _ :: b :: rest => by
      have ih := deltas_length (b :: rest)
      simp only [deltas, List.length_cons] at *
      omega

theorem abs_contribution_le (w : ℚ) (d : VoteDir) : |contribution w d| ≤ |w| := by
  cases d <;> simp [contribution, abs_neg]

theorem absMapSum_nonneg (l : List ℚ) : 0 ≤ (l.map (fun x => |x|)).sum := by
  apply List.sum_nonneg
  intro x hx
  obtain ⟨y, _, rfl⟩ := List.mem_map.mp hx
  exact abs_nonneg y

theorem abs_listSum_le (l : List ℚ) : |l.sum| ≤ (l.map (fun x => |x|)).sum := by
  induction l with
  | nil => simp
  | cons x xs ih =>
      simp only [List.sum_cons, List.map_cons]
      calc |x + xs.sum| ≤ |x| + |xs.sum| := abs_add _ _
        _ ≤ |x| + (xs.map (fun x => |x|)).sum := by linarith

theorem zipWith_contribution_abs_le :
    ∀ (ws : List ℚ) (ds : List VoteDir),
      ((List.zipWith contribution ws ds).map (fun x => |x|)).sum ≤
        (ws.map (fun w => |w|)).sum := by
  intro ws
  induction ws with
  | nil => intro ds; simp
  | cons w ws ih =>
      intro ds
      cases ds with
      | nil =>
          simp only [List.zipWith_nil_right, List.map_nil, List.sum_nil, List.map_cons,
            List.sum_cons]
          have h1 := abs_nonneg w
          have h2 := absMapSum_nonneg ws
          linarith
      | cons d ds =>
          simp only [List.zipWith_cons_cons, List.map_cons, List.sum_cons]
          have h1 := abs_contribution_le w d
          have h2 := ih ds
          linarith

/-- Claim C1: for every candle sequence shorter than an indicator's minimum
lookback, that indicator's field in the IndicatorSet is a typed absence
(`none`), never zero or NaN — in particular for sma_200, rsi, macd, stoch_k,
adx and volume_ratio — and downstream scoring turns an undefined indicator
into an abstaining vote whose numeric contribution is exactly 0. -/
theorem indicator_absence_abstains (cs : List Candle) :
    (cs.length < 200 → (computeIndicators cs).sma_200 = none) ∧
    (cs.length < 14 → (computeIndicators cs).rsi = none) ∧
    (cs.length < 26 → (computeIndicators cs).macd = none) ∧
    (cs.length < 14 → (computeIndicators cs).stoch_k = none) ∧
    (cs.length < 15 → (computeIndicators cs).adx = none) ∧
    (cs.length < 20 → (computeIndicators cs).volume_ratio = none) ∧
    (∀ f : ℚ → VoteDir, voteOf f none = VoteDir.abstain) ∧
    (∀ w : ℚ, contribution w VoteDir.abstain = 0) := by
  refine ⟨?_, ?_, ?_, ?_, ?_, ?_, fun f => rfl, fun w => rfl⟩
  · intro h
    have h' : (closes cs).length < 200 := by rw [closes_length]; exact h
    simp [computeIndicators, smaLast, h']
  · intro h
    have h' : (deltas (closes cs)).length < 14 := by
      rw [deltas_length, closes_length]; omega
    simp [computeIndicators, rsi14, h']
  · intro h
    have h' : (closes cs).length < 26 := by rw [closes_length]; exact h
    have h26 : ema 26 (closes cs) = none := by simp [ema, h']
    cases hE : ema 12 (closes cs) <;> simp [computeIndicators, macdLine, hE, h26]
  · intro h
    simp [computeIndicators, stochK14, h]
  · intro h
    simp [computeIndicators, adx14, h]
  · intro h
    simp [computeIndicators, volumeRatio20, h]

/-- Concrete five-candle series used to instantiate theorems about short
histories. -/
def demoShortCandles : List Candle :=
  [⟨5, 5, 5, 5, 1, 0⟩, ⟨4, 4, 4, 4, 1, 1⟩, ⟨1, 1, 1, 1, 1, 2⟩,
   ⟨4, 4, 4, 4, 1, 3⟩, ⟨5, 5, 5, 5, 1, 4⟩]

/-- Witness for claim C1 at the concrete five-candle series. -/
theorem indicator_absence_abstains_witness :
    (computeIndicators demoShortCandles).rsi = none ∧
    (computeIndicators demoShortCandles).sma_200 = none ∧
    (computeIndicators demoShortCandles).macd = none ∧
    (computeIndicators demoShortCandles).stoch_k = none ∧
    (computeIndicators demoShortCandles).adx = none ∧
    (computeIndicators demoShortCandles).volume_ratio = none := by
  have h := indicator_absence_abstains demoShortCandles
  exact ⟨h.2.1 (by decide), h.1 (by decide), h.2.2.1 (by decide), h.2.2.2.1 (by decide),
    h.2.2.2.2.1 (by decide), h.2.2.2.2.2.1 (by decide)⟩

/-- Claim C2: for a fixed scoring configuration, max_score is the same in
every evaluation the scoring engine produces, equals the sum of the absolute
weights of all contributions, and the score always satisfies
|score| ≤ max_score. -/
theorem max_score_fixed_and_bounds_score (cfg : ScoringConfig) (d1 d2 : List VoteDir) :
    (evaluateSignal cfg d1).max_score = (evaluateSignal cfg d2).max_score ∧
    (evaluateSignal cfg d1).max_score = (cfg.weights.map (fun w => |w|)).sum ∧
    |(evaluateSignal cfg d1).score| ≤ (evaluateSignal cfg d1).max_score := by
  refine ⟨rfl, rfl, ?_⟩
  show |totalScore cfg d1| ≤ maxScore cfg
  calc |totalScore cfg d1|
      ≤ ((List.zipWith contribution cfg.weights d1).map (fun x => |x|)).sum :=
        abs_listSum_le _
    _ ≤ (cfg.weights.map (fun w => |w|)).sum := zipWith_contribution_abs_le _ _
    _ = maxScore cfg := rfl

/-- The LevelSet published with every Position: support levels below the
current price and resistance levels above it (App.tsx lines 48-49, spec
section 3). -/
structure LevelSet where
  support : List ℚ
  resistance : List ℚ
deriving DecidableEq, Repr

/-- Whether the candle at index i is a swing high: its high exceeds the highs
of the k candles on each side (spec 4.3). -/
def isSwingHigh (cs : List Candle) (k i : ℕ) : Bool :=
  match cs[i]? with
  | none => false
  | some c =>
      decide (k ≤ i) && decide (i + k < cs.length) &&
        (List.range (2 * k + 1)).all fun d =>
          let j := i - k + d
          decide (j = i) ||
            match cs[j]? with
            | some c2 => decide (c2.high < c.high)
            | none => false

/-- Whether the candle at index i is a swing low, symmetrically (spec 4.3). -/
def isSwingLow (cs : List Candle) (k i : ℕ) : Bool :=
  match cs[i]? with
  | none => false
  | some c =>
      decide (k ≤ i) && decide (i + k < cs.length) &&
        (List.range (2 * k + 1)).all fun d =>
          let j := i - k + d
          decide (j = i) ||
            match cs[j]? with
            | some c2 => decide (c.low < c2.low)
            | none => false

/-- Highs of all swing-high candles with window half-width k. -/
def swingHighs (cs : List Candle) (k : ℕ) : List ℚ :=
  (List.range cs.length).filterMap fun i =>
    if isSwingHigh cs k i then (cs[i]?).map (fun c => c.high) else none

/-- Lows of all swing-low candles with window half-width k. -/
def swingLows (cs : List Candle) (k : ℕ) : List ℚ :=
  (List.range cs.length).filterMap fun i =>
    if isSwingLow cs k i then (cs[i]?).map (fun c => c.low) else none

/-- Whether two prices are within the 0.5 percent relative clustering
tolerance of each other (spec 4.3; 0.5 percent of b is |b|/200). -/
def withinClusterTol (a b : ℚ) : Bool := decide (|a - b| * 200 ≤ |b|)

/-- Group an ascending list of swing prices into runs of points within the
clustering tolerance of the run's first member. -/
def groupNear : List ℚ → List (List ℚ)
  | [] => []
  | x :: xs =>
      match groupNear xs with
      | [] => [[x]]
      | g :: gs =>
          match g with
          | [] => [x] :: gs
          | y :: _ => if withinClusterTol x y then (x :: g) :: gs else [x] :: g :: gs

/-- Average of a group of clustered swing prices. -/
def avgOf (g : List ℚ) : ℚ := g.sum / (g.length : ℚ)

/-- Modelled from the spec: clustering of the backend level detector
(technical_levels.py, absent from the source tree): raw swing points within
the relative tolerance are merged into one level positioned at their average
(spec 4.3). -/
def clusterLevels (pts : List ℚ) : List ℚ :=
  (groupNear (pts.mergeSort (fun a b => decide (a ≤ b)))).map avgOf

/-- Modelled from the spec: the backend level detector entry point (absent
from the source tree).  Swing highs and lows (window half-width 2) are
clustered, then filtered against the current price into support
(strictly below, sorted nearest first) and resistance (strictly above, sorted
nearest first) (spec 4.3). -/
def detectLevels (cs : List Candle) (price : ℚ) : LevelSet :=
  let pts := clusterLevels (swingHighs cs 2 ++ swingLows cs 2)
  { support := (pts.filter fun l => decide (l < price)).mergeSort fun a b => decide (b ≤ a)
    resistance := (pts.filter fun l => decide (price < l)).mergeSort fun a b => decide (a ≤ b) }

/-- The bounded presentation cut of a level list: PositionCard renders
levels.slice(0, 3) for both support and resistance (start.sh PositionCard,
Key Levels section). -/
def presentedLevels (levels : List ℚ) : List ℚ := levels.take 3

/-- Claim C3: in every published LevelSet every support level is strictly
below the current price and every resistance level strictly above it, and the
presentation retains at most three of each. -/
theorem levels_strict_and_bounded (cs : List Candle) (price : ℚ) :
    ((detectLevels cs price).support.all fun l => decide (l < price)) = true ∧
    ((detectLevels cs price).resistance.all fun l => decide (price < l)) = true ∧
    (presentedLevels (detectLevels cs price).support).length ≤ 3 ∧
    (presentedLevels (detectLevels cs price).resistance).length ≤ 3 := by
  refine ⟨?_, ?_, List.length_take_le 3 _, List.length_take_le 3 _⟩
  · rw [List.all_eq_true]
    intro l hl
    simp only [detectLevels] at hl
    rw [List.mem_mergeSort] at hl
    exact (List.mem_filter.mp hl).2
  · rw [List.all_eq_true]
    intro l hl
    simp only [detectLevels] at hl
    rw [List.mem_mergeSort] at hl
    exact (List.mem_filter.mp hl).2

/-- The action category of a Position: BUY, SELL or HOLD (spec 4.4). -/
inductive TradeAction
  | buy
  | sell
  | hold
deriving DecidableEq, Repr

/-- The optional trade plan carried by a Position (App.tsx lines 23-30).  The
frontend declares entry and the take-profit levels as nullable; risk and
reward percentages are numbers, and the risk:reward field is kept as a typed
absence here so that the zero-risk case is representable (spec 4.4). -/
structure TradePlan where
  entry : ℚ
  stop_loss : ℚ
  take_profit_1 : ℚ
  take_profit_2 : ℚ
  take_profit_3 : ℚ
  risk_pct : ℚ
  reward_pct : ℚ
  risk_reward : Option ℚ
deriving DecidableEq, Repr

/-- Modelled from the spec: risk percentage of the backend trade-plan engine
(absent from the source tree): |entry − stop_loss| / entry × 100 (spec 4.4). -/
def riskPct (entry stop : ℚ) : ℚ := |entry - stop| / entry * 100

/-- Modelled from the spec: reward percentage, computed symmetrically against
the primary target take_profit_2 (spec 4.4). -/
def rewardPct (entry tp : ℚ) : ℚ := |tp - entry| / entry * 100

/-- Modelled from the spec: the risk:reward ratio, reward_pct / risk_pct,
undefined (a typed absence, not infinite and not zero) when risk_pct is zero
(spec 4.4). -/
def riskRewardOf (risk reward : ℚ) : Option ℚ :=
  if risk = 0 then none else some (reward / risk)

/-- Modelled from the spec: the stop-loss choice of the backend trade-plan
engine (absent from the source tree): the nearest support below entry for a
BUY, the nearest resistance above entry for a SELL, with an ATR-multiple
offset as fallback when no level exists (spec 4.4; the multiple 2 stands for
the tunable ATR multiple). -/
def stopLossFor (a : TradeAction) (price : ℚ) (ls : LevelSet) (atr : ℚ) : ℚ :=
  match a with
  | .buy =>
      match ls.support with
      | s :: _ => s
      | [] => price - 2 * atr
  | .sell =>
      match ls.resistance with
      | r :: _ => r
      | [] => price + 2 * atr
  | .hold => price

/-- Take-profit level at risk-multiple m of the entry-to-stop distance, in the
trade direction. -/
def takeProfitAt (a : TradeAction) (price dist m : ℚ) : ℚ :=
  match a with
  | .sell => price - m * dist
  | _ => price + m * dist

/-- Modelled from the spec: the backend trade-plan generator (absent from the
source tree): no plan for HOLD; otherwise entry is the current price, the stop
comes from the level set or the ATR fallback, the three take-profit levels sit
at 1x, 2x and 3x the entry-to-stop distance, and the metrics follow the spec
formulas (spec 4.4). -/
def makePlan (a : TradeAction) (price : ℚ) (ls : LevelSet) (atr : ℚ) : Option TradePlan :=
  match a with
  | .hold => none
  | _ =>
      let stop := stopLossFor a price ls atr
      let dist := |price - stop|
      let risk := riskPct price stop
      let tp2 := takeProfitAt a price dist 2
      let reward := rewardPct price tp2
      some
        { entry := price
          stop_loss := stop
          take_profit_1 := takeProfitAt a price dist 1
          take_profit_2 := tp2
          take_profit_3 := takeProfitAt a price dist 3
          risk_pct := risk
          reward_pct := reward
          risk_reward := riskRewardOf risk reward }

/-- The partial-exit tier labels PositionCard prints next to the three
take-profit boxes (start.sh PositionCard, Trade Setup section). -/
def tpTierLabels : List String := ["TP1 (33%)", "TP2 (50%)", "TP3 (100%)"]

/-- The take-profit level PositionCard shows in the headline Take Profit box,
next to the reward percentage: take_profit_2 (start.sh PositionCard, Trade
Setup section). -/
def headlineTakeProfit (pl : TradePlan) : ℚ := pl.take_profit_2

/-- Claim C6: a Position carries a trade plan exactly when its action is not
HOLD; the three take-profit levels sit at 1x, 2x and 3x the entry-to-stop
distance, labeled as the 33/50/100 percent partial-exit tiers, and
take_profit_2 is the primary target behind the headline reward and
risk:reward. -/
theorem trade_plan_iff_actionable (a : TradeAction) (price : ℚ) (ls : LevelSet) (atr : ℚ) :
    (makePlan TradeAction.hold price ls atr = none) ∧
    (a ≠ TradeAction.hold →
      ∃ pl, makePlan a price ls atr = some pl ∧
        pl.entry = price ∧
        |pl.take_profit_1 - pl.entry| = 1 * |pl.entry - pl.stop_loss| ∧
        |pl.take_profit_2 - pl.entry| = 2 * |pl.entry - pl.stop_loss| ∧
        |pl.take_profit_3 - pl.entry| = 3 * |pl.entry - pl.stop_loss| ∧
        pl.reward_pct = rewardPct pl.entry (headlineTakeProfit pl) ∧
        pl.risk_reward = riskRewardOf pl.risk_pct pl.reward_pct ∧
        tpTierLabels = ["TP1 (33%)", "TP2 (50%)", "TP3 (100%)"]) := by
  constructor
  · rfl
  · intro ha
    have habs : ∀ m : ℚ, 0 ≤ m →
        |takeProfitAt a price (|price - stopLossFor a price ls atr|) m - price| =
          m * |price - stopLossFor a price ls atr| := by
      intro m hm
      cases a <;>
        simp [takeProfitAt, abs_sub_comm, abs_mul, abs_of_nonneg hm, abs_abs]
    cases a with
    | hold => exact absurd rfl ha
    | buy =>
        refine ⟨_, rfl, rfl, ?_, ?_, ?_, rfl, rfl, rfl⟩
        · simpa using habs 1 (by norm_num)
        · simpa using habs 2 (by norm_num)
        · simpa using habs 3 (by norm_num)
    | sell =>
        refine ⟨_, rfl, rfl, ?_, ?_, ?_, rfl, rfl, rfl⟩
        · simpa using habs 1 (by norm_num)
        · simpa using habs 2 (by norm_num)
        · simpa using habs 3 (by norm_num)

/-- Concrete level set with a single support at 95 used to instantiate the
trade-plan theorems. -/
def demoLevels : LevelSet := { support := [95], resistance := [] }

/-- Witness for claim C6: a BUY at price 100 over the demo levels yields a
plan whose targets sit at the three risk-multiples. -/
theorem trade_plan_iff_actionable_witness :
    ∃ pl, makePlan TradeAction.buy 100 demoLevels 2 = some pl ∧
      pl.entry = 100 ∧
      |pl.take_profit_2 - pl.entry| = 2 * |pl.entry - pl.stop_loss| := by
  obtain ⟨pl, hpl, he, _, h2, _⟩ :=
    (trade_plan_iff_actionable TradeAction.buy 100 demoLevels 2).2 (by decide)
  exact ⟨pl, hpl, he, h2⟩

/-- Claim C4: for every actionable Position the stored metrics satisfy
risk_pct = |entry − stop_loss| / entry × 100, reward_pct is computed
symmetrically against take_profit_2, the risk:reward ratio equals
reward_pct / risk_pct when risk_pct is nonzero and is a typed absence — not
infinite and not zero — when risk_pct is zero; the spec's worked example
entry 100, stop 95, take_profit_2 115 gives 5, 15 and 3. -/
theorem trade_metrics_formulas (a : TradeAction) (price : ℚ) (ls : LevelSet) (atr : ℚ)
    (ha : a ≠ TradeAction.hold) :
    (∃ pl, makePlan a price ls atr = some pl ∧
      pl.risk_pct = |pl.entry - pl.stop_loss| / pl.entry * 100 ∧
      pl.reward_pct = |pl.take_profit_2 - pl.entry| / pl.entry * 100 ∧
      (pl.risk_pct = 0 → pl.risk_reward = none) ∧
      (pl.risk_pct ≠ 0 → pl.risk_reward = some (pl.reward_pct / pl.risk_pct)) ∧
      (∀ r : ℚ, riskRewardOf 0 r = none)) ∧
    riskPct 100 95 = 5 ∧ rewardPct 100 115 = 15 ∧ riskRewardOf 5 15 = some 3 := by
  constructor
  · have main : ∀ b : TradeAction, b ≠ TradeAction.hold →
        ∃ pl, makePlan b price ls atr = some pl ∧
          pl.risk_pct = |pl.entry - pl.stop_loss| / pl.entry * 100 ∧
          pl.reward_pct = |pl.take_profit_2 - pl.entry| / pl.entry * 100 ∧
          (pl.risk_pct = 0 → pl.risk_reward = none) ∧
          (pl.risk_pct ≠ 0 → pl.risk_reward = some (pl.reward_pct / pl.risk_pct)) ∧
          (∀ r : ℚ, riskRewardOf 0 r = none) := by
      intro b hb
      cases b with
      | hold => exact absurd rfl hb
      | buy =>
          refine ⟨_, rfl, by simp [riskPct, abs_sub_comm], rfl, ?_, ?_, fun r => rfl⟩
          · intro h0; dsimp only at h0; simp [riskRewardOf, h0]
          · intro h0; dsimp only at h0; simp [riskRewardOf, h0]
      | sell =>
          refine ⟨_, rfl, by simp [riskPct, abs_sub_comm], rfl, ?_, ?_, fun r => rfl⟩
          · intro h0; dsimp only at h0; simp [riskRewardOf, h0]
          · intro h0; dsimp only at h0; simp [riskRewardOf, h0]
    exact main a ha
  · refine ⟨?_, ?_, ?_⟩
    · simp [riskPct]; norm_num
    · simp [rewardPct]; norm_num
    · simp [riskRewardOf]; norm_num

/-- Witness for claim C4: a BUY at price 100 over the demo levels has the
claimed metric equations, and the zero-risk ratio is a typed absence. -/
theorem trade_metrics_formulas_witness :
    (∃ pl, makePlan TradeAction.buy 100 demoLevels 2 = some pl ∧
      pl.risk_pct = |pl.entry - pl.stop_loss| / pl.entry * 100) ∧
    riskRewardOf 0 7 = none := by
  obtain ⟨⟨pl, hpl, hrisk, _⟩, _⟩ :=
    trade_metrics_formulas TradeAction.buy 100 demoLevels 2 (by decide)
  exact ⟨⟨pl, hpl, hrisk⟩, rfl⟩

/-- One source's successful price reading, as listed in the frontend
SpotPrices.sources entries (App.tsx lines 81-86). -/
structure SourceQuote where
  source : String
  price : ℚ
deriving DecidableEq, Repr

/-- Modelled from the spec: the explicit failure the aggregator raises when
zero sources succeed (spec 4.1 and 7). -/
inductive AggregationFailure
  | allSourcesFailed
deriving DecidableEq, Repr

/-- The blended quote published to the frontend: average price, optional
spread percentage and the per-source list (App.tsx SpotPrices, spec
section 3). -/
structure BlendedQuote where
  average : ℚ
  spread_pct : Option ℚ
  sources : List SourceQuote
deriving DecidableEq, Repr

/-- Modelled from the spec: the backend price aggregator
(silver_data_sources.py, absent from the source tree).  It averages the
successful observations, computes spread_pct = (max − min)/average × 100 when
at least two succeeded (undefined below that), and fails explicitly with an
AggregationFailure when zero succeeded instead of fabricating a price
(spec 4.1). -/
def aggregate (obs : List SourceQuote) : Except AggregationFailure BlendedQuote :=
  match obs with
  | [] => .error .allSourcesFailed
  | o :: rest =>
      let ps := (o :: rest).map (fun q => q.price)
      let avg := ps.sum / (ps.length : ℚ)
      .ok
        { average := avg
          spread_pct :=
            if ps.length < 2 then none
            else some ((listMax ps - listMin ps) / avg * 100)
          sources := o :: rest }

/-- Concrete two-source observation list realising the spec's aggregation
example. -/
def demoQuotes : List SourceQuote :=
  [{ source := "silverprice", price := 100 }, { source := "apmex", price := 102 }]

/-- Claim C5: the blended average is the arithmetic mean of the successful
observations, spread_pct = (max − min)/average × 100 and is undefined with
fewer than two observations, zero successful observations fail explicitly
with an AggregationFailure rather than returning 0, and the worked example
[100, 102] gives average 101 and spread_pct = 200/101 (about 1.98). -/
theorem aggregate_mean_spread_failure (obs : List SourceQuote) :
    (aggregate [] = Except.error AggregationFailure.allSourcesFailed) ∧
    (obs ≠ [] →
      ∃ q, aggregate obs = Except.ok q ∧
        q.average = (obs.map (fun o => o.price)).sum / ((obs.map (fun o => o.price)).length : ℚ) ∧
        (obs.length < 2 → q.spread_pct = none) ∧
        (2 ≤ obs.length → q.spread_pct =
          some ((listMax (obs.map (fun o => o.price)) - listMin (obs.map (fun o => o.price))) /
            q.average * 100))) ∧
    (∃ q, aggregate demoQuotes = Except.ok q ∧
      q.average = 101 ∧ q.spread_pct = some (200 / 101)) := by
  refine ⟨rfl, ?_, ?_⟩
  · intro hne
    match obs with
    | [] => exact absurd rfl hne
    | o :: rest =>
        refine ⟨_, rfl, ?_, ?_, ?_⟩
        · dsimp only
        · intro hlen
          have h2 : ((o :: rest).map (fun q => q.price)).length < 2 := by
            rw [List.length_map]; exact hlen
          dsimp only
          rw [if_pos h2]
        · intro hlen
          have h2 : ¬ ((o :: rest).map (fun q => q.price)).length < 2 := by
            rw [List.length_map]; omega
          dsimp only
          rw [if_neg h2]
  · have havg : ((demoQuotes.map (fun q => q.price)).sum /
        ((demoQuotes.map (fun q => q.price)).length : ℚ)) = 101 := by
      simp [demoQuotes]
      norm_num
    refine ⟨_, rfl, havg, ?_⟩
    have hmax : listMax (demoQuotes.map (fun q => q.price)) = 102 := by
      simp [demoQuotes, listMax]
      norm_num [max_def]
    have hmin : listMin (demoQuotes.map (fun q => q.price)) = 100 := by
      simp [demoQuotes, listMin]
      norm_num [min_def]
    simp only [demoQuotes, List.map_cons, List.map_nil] at hmax hmin havg ⊢
    rw [if_neg (by norm_num)]
    rw [hmax, hmin, havg]
    norm_num

/-- Witness for claim C5 at the concrete two-source observation list. -/
theorem aggregate_mean_spread_failure_witness :
    ∃ q, aggregate demoQuotes = Except.ok q ∧ q.average = 101 ∧ q.spread_pct = some (200 / 101) := by
  obtain ⟨-, hgen, hdemo⟩ := aggregate_mean_spread_failure demoQuotes
  obtain ⟨q, hq, -⟩ := hgen (by decide)
  exact hdemo

/-- The aggregate published each cycle (spec section 3): the blended quote, a
sentiment score and the narrative text. -/
structure Snapshot where
  blended : BlendedQuote
  sentiment : ℚ
  narrative : String
deriving DecidableEq, Repr

/-- Modelled from the spec: the scheduler's only shared state, the latest
published Snapshot (none before the first successful cycle) (spec 4.5, 5). -/
structure ServerState where
  lastSnapshot : Option Snapshot
deriving DecidableEq, Repr

/-- Modelled from the spec: publishing a cycle's Snapshot replaces the shared
value atomically (spec 4.5). -/
def publish (srv : ServerState) (snap : Snapshot) : ServerState :=
  let _ := srv
  { lastSnapshot := some snap }

/-- Modelled from the spec: the point-in-time read served to a subscriber on
connect returns the last published Snapshot immediately, independent of the
push channel and of any in-flight cycle (spec 5, 6). -/
def serveInitialRead (srv : ServerState) : Option Snapshot := srv.lastSnapshot

/-- One step the client takes while mounting: a REST GET against an endpoint,
or opening the WebSocket (App.tsx). -/
inductive ClientStep
  | restGet (endpoint : String)
  | openWebSocket
deriving DecidableEq, Repr

/-- The REST reads fetchInitialData issues, in source order (App.tsx lines
100-122: the health check, then positions, fear-greed, summary and
current-price in parallel). -/
def fetchInitialDataSteps : List ClientStep :=
  [.restGet "/api/health", .restGet "/api/positions", .restGet "/api/fear-greed",
   .restGet "/api/summary", .restGet "/api/current-price"]

/-- The mount effect of the App component, in source order: it invokes
fetchInitialData first and only then constructs the WebSocket (App.tsx lines
159-163). -/
def mountSteps : List ClientStep := fetchInitialDataSteps ++ [.openWebSocket]

/-- Claim C7: a subscriber that connects between two scheduler cycles
immediately receives the last published Snapshot through an initial
point-in-time REST read: reading right after a publish and before any further
cycle yields that Snapshot, every REST read of the mount sequence strictly
precedes the WebSocket opening, and the initial-data path itself contains no
WebSocket step. -/
theorem initial_read_before_websocket (srv : ServerState) (snap : Snapshot) :
    serveInitialRead (publish srv snap) = some snap ∧
    (∀ (e : String) (i j : ℕ),
      mountSteps[i]? = some (ClientStep.restGet e) →
      mountSteps[j]? = some ClientStep.openWebSocket → i < j) ∧
    ClientStep.openWebSocket ∉ fetchInitialDataSteps := by
  refine ⟨rfl, ?_, by decide⟩
  intro e i j hi hj
  have hilen : i < mountSteps.length := by
    by_contra hh
    rw [List.getElem?_eq_none (le_of_not_lt hh)] at hi
    exact Option.noConfusion hi
  have hjlen : j < mountSteps.length := by
    by_contra hh
    rw [List.getElem?_eq_none (le_of_not_lt hh)] at hj
    exact Option.noConfusion hj
  have hlen : mountSteps.length = 6 := by decide
  rw [hlen] at hilen hjlen
  interval_cases i <;> interval_cases j <;>
    simp_all [mountSteps, fetchInitialDataSteps]

/-- Concrete Snapshot used to instantiate the scheduler theorems. -/
def demoSnapshot : Snapshot :=
  { blended := { average := 101, spread_pct := some (200 / 101), sources := demoQuotes }
    sentiment := 50
    narrative := "ok" }

/-- Witness for claim C7: a freshly published demo Snapshot is returned by the
initial read, and the first REST read of the mount sequence precedes the
WebSocket step at index 5. -/
theorem initial_read_before_websocket_witness :
    serveInitialRead (publish { lastSnapshot := none } demoSnapshot) = some demoSnapshot ∧
    (0 : ℕ) < 5 := by
  have h := initial_read_before_websocket { lastSnapshot := none } demoSnapshot
  exact ⟨h.1, h.2.1 "/api/health" 0 5 (by decide) (by decide)⟩

/-- The FearGreedData record held in client state (App.tsx lines 68-73,
FearGreedWidget.tsx lines 4-9). -/
structure FearGreedData where
  value : ℚ
  classification : String
  is_extreme_fear : Bool
  is_extreme_greed : Bool
deriving DecidableEq, Repr

/-- The fear/greed record the update handler builds from an incoming payload:
is_extreme_fear is value < 25 and is_extreme_greed is value > 75 (App.tsx
lines 185-192). -/
def applyFearGreed (value : ℚ) (classification : String) : FearGreedData :=
  { value := value
    classification := classification
    is_extreme_fear := decide (value < 25)
    is_extreme_greed := decide (75 < value) }

/-- The recommendation box contents of the fear/greed widget. -/
structure Recommendation where
  title : String
  message : String
  color : String
deriving DecidableEq, Repr

/-- FearGreedWidget.getRecommendation (FearGreedWidget.tsx lines 32-59):
extreme fear wins, then extreme greed, then the value-below-50 and default
branches. -/
def getRecommendation (d : FearGreedData) : Recommendation :=
  if d.is_extreme_fear then
    { title := "Extreme Fear = BUY OPPORTUNITY!"
      message := "When others are fearful, be greedy. Historically, extreme fear marks great buying opportunities."
      color := "text-green-400" }
  else if d.is_extreme_greed then
    { title := "Extreme Greed = TAKE PROFITS!"
      message := "When others are greedy, be fearful. Consider taking some profits off the table."
      color := "text-red-400" }
  else if d.value < 50 then
    { title := "Cautious Market"
      message := "Market showing some fear. Good time for cautious accumulation."
      color := "text-yellow-400" }
  else
    { title := "Optimistic Market"
      message := "Market showing confidence. Watch for potential reversal signs."
      color := "text-blue-400" }

/-- The Claude summary payload held in client state (App.tsx lines 75-79). -/
structure ClaudeSummaryData where
  headline : String
  body : String
  status : String
deriving DecidableEq, Repr

/-- The spot-price payload held in client state, with every field optional
(App.tsx lines 81-86; the sources and intraday fields are elided as no claim
touches them). -/
structure SpotPricesMsg where
  average : Option ℚ
  spread_pct : Option ℚ
deriving DecidableEq, Repr

/-- The client state the WebSocket handler can touch, over an abstract
position payload type (App.tsx lines 89-97; the loading, error and
wsConnected flags are not written by onmessage and are elided). -/
structure ClientState (α : Type) where
  positions : List α
  currentPrice : ℚ
  summary : Option ClaudeSummaryData
  spotPrices : Option SpotPricesMsg
  fearGreed : Option FearGreedData
  lastUpdate : ℕ
deriving DecidableEq, Repr

/-- The fields of a parsed WebSocket message (App.tsx lines 174-194): the
optional summary, spot_prices and fear_greed payloads are applied only when
present. -/
structure UpdateFields (α : Type) where
  positions : List α
  current_price : ℚ
  summary : Option ClaudeSummaryData
  spot_prices : Option SpotPricesMsg
  fear_greed : Option (ℚ × String)
deriving DecidableEq, Repr

/-- An incoming WebSocket event: either text that fails JSON.parse, or a
parsed object with its type field (App.tsx lines 170-199). -/
inductive WsMessage (α : Type)
  | invalid
  | parsed (msgType : String) (fields : UpdateFields α)
deriving DecidableEq, Repr

/-- The ws.onmessage handler (App.tsx lines 170-199): a parse failure is
caught and changes nothing; a parsed message changes state only when its type
field is the string update, in which case positions and current_price are
replaced, summary, spot_prices and fear_greed are replaced when present, and
lastUpdate is set to the current time. -/
def onMessage {α : Type} (now : ℕ) (s : ClientState α) (m : WsMessage α) : ClientState α :=
  match m with
  | .invalid => s
  | .parsed t f =>
      if t = "update" then
        { positions := f.positions
          currentPrice := f.current_price
          summary := match f.summary with | some x => some x | none => s.summary
          spotPrices := match f.spot_prices with | some x => some x | none => s.spotPrices
          fearGreed :=
            match f.fear_greed with
            | some (v, cls) => some (applyFearGreed v cls)
            | none => s.fearGreed
          lastUpdate := now }
      else s

/-- Claim C8: applying a WebSocket update whose fear_greed payload has value v
sets is_extreme_fear exactly when v < 25 and is_extreme_greed exactly when
v > 75; the two flags are never both true, for 25 ≤ v ≤ 75 neither is set,
and in that band the widget shows neither extreme recommendation. -/
theorem fear_greed_flags_exclusive {α : Type} (now : ℕ) (s : ClientState α)
    (f : UpdateFields α) (v : ℚ) (cls : String)
    (hf : f.fear_greed = some (v, cls)) :
    ∃ d, (onMessage now s (WsMessage.parsed "update" f)).fearGreed = some d ∧
      (d.is_extreme_fear = true ↔ v < 25) ∧
      (d.is_extreme_greed = true ↔ 75 < v) ∧
      ¬(d.is_extreme_fear = true ∧ d.is_extreme_greed = true) ∧
      (25 ≤ v → v ≤ 75 → d.is_extreme_fear = false ∧ d.is_extreme_greed = false) ∧
      (25 ≤ v → v ≤ 75 →
        (getRecommendation d).title ≠ "Extreme Fear = BUY OPPORTUNITY!" ∧
        (getRecommendation d).title ≠ "Extreme Greed = TAKE PROFITS!") := by
  refine ⟨applyFearGreed v cls, ?_, ?_, ?_, ?_, ?_, ?_⟩
  · simp [onMessage, hf]
  · simp [applyFearGreed]
  · simp [applyFearGreed]
  · rintro ⟨h1, h2⟩
    simp [applyFearGreed] at h1 h2
    linarith
  · intro h1 h2
    constructor <;> simp [applyFearGreed] <;> linarith
  · intro h1 h2
    have hfear : (applyFearGreed v cls).is_extreme_fear = false := by
      simp [applyFearGreed]; linarith
    have hgreed : (applyFearGreed v cls).is_extreme_greed = false := by
      simp [applyFearGreed]; linarith
    unfold getRecommendation
    rw [hfear, hgreed]
    by_cases hlt : (applyFearGreed v cls).value < 50 <;> simp [hlt]

/-- Witness for claim C8 at value 50: neither extreme flag is set and neither
extreme recommendation is shown. -/
theorem fear_greed_flags_exclusive_witness :
    ∃ d, (onMessage (α := Unit) 7
        { positions := [], currentPrice := 30, summary := none, spotPrices := none,
          fearGreed := none, lastUpdate := 0 }
        (WsMessage.parsed "update"
          { positions := [], current_price := 31, summary := none, spot_prices := none,
            fear_greed := some (50, "Neutral") })).fearGreed = some d ∧
      d.is_extreme_fear = false ∧ d.is_extreme_greed = false := by
  obtain ⟨d, hd, -, -, -, hband, -⟩ :=
    fear_greed_flags_exclusive (α := Unit) 7
      { positions := [], currentPrice := 30, summary := none, spotPrices := none,
        fearGreed := none, lastUpdate := 0 }
      { positions := [], current_price := 31, summary := none, spot_prices := none,
        fear_greed := some (50, "Neutral") }
      50 "Neutral" rfl
  obtain ⟨h1, h2⟩ := hband (by norm_num) (by norm_num)
  exact ⟨d, hd, h1, h2⟩

/-- Claim C9: a WebSocket message that is not valid JSON, or whose parsed type
field is not the string update, leaves the whole client state unchanged. -/
theorem non_update_message_unchanged {α : Type} (now : ℕ) (s : ClientState α)
    (f : UpdateFields α) (t : String) :
    onMessage now s (WsMessage.invalid) = s ∧
    (t ≠ "update" → onMessage now s (WsMessage.parsed t f) = s) := by
  refine ⟨rfl, ?_⟩
  intro ht
  simp [onMessage, ht]

/-- Witness for claim C9: a parsed message of type ping leaves a concrete
state untouched. -/
theorem non_update_message_unchanged_witness :
    onMessage (α := Unit) 7
        { positions := [], currentPrice := 30, summary := none, spotPrices := none,
          fearGreed := none, lastUpdate := 0 }
        (WsMessage.parsed "ping"
          { positions := [()], current_price := 31, summary := none, spot_prices := none,
            fear_greed := some (50, "Neutral") }) =
      { positions := [], currentPrice := 30, summary := none, spotPrices := none,
        fearGreed := none, lastUpdate := 0 } :=
  (non_update_message_unchanged (α := Unit) 7
      { positions := [], currentPrice := 30, summary := none, spotPrices := none,
        fearGreed := none, lastUpdate := 0 }
      { positions := [()], current_price := 31, summary := none, spot_prices := none,
        fear_greed := some (50, "Neutral") }
      "ping").2 (by decide)

/-- Whether the first character list is an initial segment of the second;
embeds the prefix test behind the JavaScript String.includes. -/
def isPfx : List Char → List Char → Bool
  | [], _ => true
  | _ :: _, [] => false
  | a :: as, b :: bs => decide (a = b) && isPfx as bs

/-- Whether the needle occurs contiguously anywhere in the haystack; embeds
the JavaScript String.includes used by PositionCard.getRecommendationBg. -/
def hasSub (needle : List Char) : List Char → Bool
  | [] => isPfx needle []
  | c :: rest => isPfx needle (c :: rest) || hasSub needle rest

theorem hasSub_append_tail (y : List Char) :
    ∀ (x l : List Char), isPfx (x ++ y) l = true → hasSub y l = true := by
  intro x
  induction x with
  | nil =>
      intro l h
      cases l with
      | nil => simpa [hasSub] using h
      | cons c rest =>
          have h1 : isPfx y (c :: rest) = true := by simpa using h
          simp [hasSub, h1]
  | cons a as ih =>
      intro l h
      cases l with
      | nil => simp [isPfx] at h
      | cons b bs =>
          have h2 : isPfx (as ++ y) bs = true := by
            simp only [List.cons_append, isPfx, Bool.and_eq_true] at h
            exact h.2
          have h3 := ih bs h2
          simp [hasSub, h3]

theorem hasSub_weakbuy_buy (l : List Char) :
    hasSub ("WEAK BUY".toList) l = true → hasSub ("BUY".toList) l = true := by
  induction l with
  | nil => intro h; exact absurd h (by decide)
  | cons c rest ih =>
      intro h
      have h' : isPfx ("WEAK ".toList ++ "BUY".toList) (c :: rest) = true ∨
          hasSub ("WEAK BUY".toList) rest = true := by
        simpa [hasSub, Bool.or_eq_true] using h
      rcases h' with h1 | h2
      · exact hasSub_append_tail ("BUY".toList) ("WEAK ".toList) (c :: rest) h1
      · have hr := ih h2
        simp only [hasSub, Bool.or_eq_true]
        right
        exact hr

theorem hasSub_weaksell_sell (l : List Char) :
    hasSub ("WEAK SELL".toList) l = true → hasSub ("SELL".toList) l = true := by
  induction l with
  | nil => intro h; exact absurd h (by decide)
  | cons c rest ih =>
      intro h
      have h' : isPfx ("WEAK ".toList ++ "SELL".toList) (c :: rest) = true ∨
          hasSub ("WEAK SELL".toList) rest = true := by
        simpa [hasSub, Bool.or_eq_true] using h
      rcases h' with h1 | h2
      · exact hasSub_append_tail ("SELL".toList) ("WEAK ".toList) (c :: rest) h1
      · have hr := ih h2
        simp only [hasSub, Bool.or_eq_true]
        right
        exact hr

/-- PositionCard.getRecommendationBg (start.sh PositionCard, lines 225-233):
the header style chosen by a chain of String.includes tests in source
order. -/
def getRecommendationBg (rec : String) : String :=
  if hasSub ("STRONG BUY".toList) rec.toList then "from-green-600 to-green-700"
  else if hasSub ("BUY".toList) rec.toList then "from-green-500 to-green-600"
  else if hasSub ("WEAK BUY".toList) rec.toList then "from-yellow-500 to-yellow-600"
  else if hasSub ("STRONG SELL".toList) rec.toList then "from-red-600 to-red-700"
  else if hasSub ("SELL".toList) rec.toList then "from-red-500 to-red-600"
  else if hasSub ("WEAK SELL".toList) rec.toList then "from-orange-500 to-orange-600"
  else "from-gray-500 to-gray-600"

/-- Claim C10: getRecommendationBg never returns the WEAK BUY style
from-yellow-500 to-yellow-600 or the WEAK SELL style
from-orange-500 to-orange-600, because any string containing WEAK BUY also
contains BUY and is captured by the earlier plain-BUY branch, and likewise
for WEAK SELL; so all recommendations map into at most five header
styles. -/
theorem weak_styles_unreachable (rec : String) :
    getRecommendationBg rec ≠ "from-yellow-500 to-yellow-600" ∧
    getRecommendationBg rec ≠ "from-orange-500 to-orange-600" ∧
    getRecommendationBg rec ∈
      ["from-green-600 to-green-700", "from-green-500 to-green-600",
       "from-red-600 to-red-700", "from-red-500 to-red-600",
       "from-gray-500 to-gray-600"] := by
  unfold getRecommendationBg
  split_ifs with h1 h2 h3 h4 h5 h6
  · exact ⟨by decide, by decide, by decide⟩
  · exact ⟨by decide, by decide, by decide⟩
  · exact absurd (hasSub_weakbuy_buy rec.toList h3) h2
  · exact ⟨by decide, by decide, by decide⟩
  · exact ⟨by decide, by decide, by decide⟩
  · exact absurd (hasSub_weaksell_sell rec.toList h6) h5
  · exact ⟨by decide, by decide, by decide⟩

end SilverBot
